import Mathlib

/-!
Verification of the sarif finding-aggregation and report-emission core
(`internal/sarif/handler.go`) of the govulncheck repository.

The Go code is shallowly embedded: the handler state becomes a structure
over association lists (Go maps keyed by strings, with unique keys), pure
helper functions become Lean functions, and the single fallible operation
(`Flush`) is modelled with `Except`.  Types that the handler uses but that
are defined outside the given sources (`govulncheck.Config`,
`govulncheck.Frame`, `osv.Entry`, the sarif output structs, and the string
helpers `choose` and `list`) are modelled from the specification; each such
definition carries a doc comment saying so.
-/

/-- Modelled from the spec: the scan depth configuration value
(module-level, package-level or symbol-level).  The Go type
`govulncheck.ScanLevel` and its methods `WantSymbols` and `WantPackages`
are not part of the given sources; the spec describes the depth as one of
module/package/symbol, where requesting symbols implies requesting
packages. -/
inductive ScanLevel where
  | module : ScanLevel
  | package : ScanLevel
  | symbol : ScanLevel
deriving DecidableEq, Inhabited

/-- Modelled from the spec: `ScanLevel.WantSymbols` holds exactly when
symbol-level scanning was requested. -/
def ScanLevel.WantSymbols : ScanLevel → Bool
  | ScanLevel.symbol => true
  | _ => false

/-- Modelled from the spec: `ScanLevel.WantPackages` holds when package- or
symbol-level scanning was requested. -/
def ScanLevel.WantPackages : ScanLevel → Bool
  | ScanLevel.symbol => true
  | ScanLevel.package => true
  | ScanLevel.module => false

/-- Modelled from the spec: the configuration stored by the handler on
`Config`, carrying the tool identity and the requested scan depth
(`govulncheck.Config` is not part of the given sources; the fields are the
ones the handler reads: `ScannerName`, `ScannerVersion`, `ScanLevel`). -/
structure Config where
  ScannerName : String
  ScannerVersion : String
  ScanLevel : ScanLevel
deriving DecidableEq, Inhabited

/-- Modelled from the spec: a vulnerability definition (`osv.Entry` is not
part of the given sources); the handler reads `ID`, `Summary`, `Details`
and `Aliases`. -/
structure OsvEntry where
  ID : String
  Summary : String
  Details : String
  Aliases : List String
deriving DecidableEq, Inhabited

/-- Modelled from the spec: one located fact of a trace
(`govulncheck.Frame` is not part of the given sources); the handler reads
`Module`, `Package`, `Function` and `Receiver`.  Empty string means the
field is not populated. -/
structure Frame where
  Module : String
  Package : String
  Function : String
  Receiver : String
deriving DecidableEq, Inhabited

/-- Modelled from the spec: a finding (`govulncheck.Finding` is not part of
the given sources): a vulnerability identifier `OSV`, a fixed-version hint
and a trace whose index 0 is the sink frame. -/
structure Finding where
  OSV : String
  FixedVersion : String
  Trace : List Frame
deriving DecidableEq, Inhabited

/-- Modelled from the spec: a sarif text object (struct `Description` of the
sarif package, used by the handler for messages and descriptions). -/
structure Description where
  Text : String
deriving DecidableEq, Inhabited

/-- Modelled from the spec: the tag list attached to a rule (struct
`RuleTags` of the sarif package). -/
structure RuleTags where
  Tags : List String
deriving DecidableEq, Inhabited

/-- Modelled from the spec: one catalog entry of the report (struct `Rule`
of the sarif package, with the fields the handler fills in). -/
structure Rule where
  ID : String
  ShortDescription : Description
  FullDescription : Description
  HelpURI : String
  Help : Description
  Properties : RuleTags
deriving DecidableEq, Inhabited

/-- Modelled from the spec: one displayed stack frame (struct `Frame` of the
sarif package; the handler only fills in the module path). -/
structure StackFrame where
  Module : String
deriving DecidableEq, Inhabited

/-- Modelled from the spec: one call stack of a result (struct `Stack` of
the sarif package): an ordered frame list and a descriptive label. -/
structure Stack where
  Frames : List StackFrame
  Message : Description
deriving DecidableEq, Inhabited

/-- Modelled from the spec: one result of the report (struct `Result` of the
sarif package, with the fields the handler fills in). -/
structure Result where
  RuleID : String
  Level : String
  Message : Description
  Stacks : List Stack
deriving DecidableEq, Inhabited

/-- Modelled from the spec: the driver part of the tool identity (struct
`Driver` of the sarif package); `Properties` echoes the configuration. -/
structure Driver where
  Name : String
  Version : String
  InformationURI : String
  Properties : Config
  Rules : List Rule
deriving DecidableEq, Inhabited

/-- Modelled from the spec: the tool of a run (struct `Tool` of the sarif
package). -/
structure Tool where
  Driver : Driver
deriving DecidableEq, Inhabited

/-- Modelled from the spec: one run of the document (struct `Run` of the
sarif package). -/
structure Run where
  Tool : Tool
  Results : List Result
deriving DecidableEq, Inhabited

/-- Modelled from the spec: the top-level sarif document (struct `Log` of
the sarif package): format version, schema URI and the run list. -/
structure Log where
  Version : String
  Schema : String
  Runs : List Run
deriving DecidableEq, Inhabited

/-- Lookup in an association list modelling a Go map with unique keys
(returns the value bound to the first matching key). -/
def lookupMap {α : Type} : List (String × α) → String → Option α
  | [], _ => none
  | (k2, v) :: rest, k => if k2 = k then some v else lookupMap rest k

/-- Assignment `m[k] = v` on an association list modelling a Go map:
replaces the binding of `k` when present, otherwise appends it. -/
def insertMap {α : Type} : List (String × α) → String → α → List (String × α)
  | [], k, v => [(k, v)]
  | (k2, v2) :: rest, k, v =>
    if k2 = k then (k, v) :: rest else (k2, v2) :: insertMap rest k v

/-- Lexicographic comparison of character lists; agrees with the bytewise
string order used by Go (`sort.Strings`) on the strings involved, since
UTF-8 preserves code-point order. -/
def charListLe : List Char → List Char → Bool
  | [], _ => true
  | _ :: _, [] => false
  | a :: as, b :: bs =>
    if a < b then true
    else if b < a then false
    else charListLe as bs

/-- String comparison underlying every sort of the handler (the order of
`sort.Strings` and of the `less` closures passed to `sort.SliceStable`). -/
def strLe (a b : String) : Bool := charListLe a.toList b.toList

/-- Net effect of the Go idiom used in `resultMessage`: collect strings as
keys of a `map[string]bool`, extract the keys and sort them with
`sort.Strings`.  The iteration order of the intermediate map is invisible
in the sorted result, so the idiom is embedded as sorting the deduplicated
list. -/
def sortedUnique (xs : List String) : List String :=
  List.insertionSort (fun a b => strLe a b = true) xs.dedup

/-- State of the sarif handler (struct `handler`): the configuration
recorded by `Config`, the definitions recorded by `OSV` and the finding
groups, keyed by OSV identifier.  The output writer is not part of the
state; `Flush` below takes the writer as an argument.  `cfg` is mandatory
here, modelling a handler on which `Config` has been called (the code
dereferences `h.cfg` unconditionally at flush time). -/
structure Handler where
  cfg : Config
  osvs : List (String × OsvEntry)
  findings : List (String × List Finding)
deriving DecidableEq, Inhabited

/-- `NewHandler` followed by `Config(c)`: empty maps, configuration
recorded. -/
def newHandler (cfg : Config) : Handler :=
  { cfg := cfg, osvs := [], findings := [] }

/-- Method `OSV` of the handler: records (last write wins) the entry under
its identifier. -/
def Handler.OSV (h : Handler) (e : OsvEntry) : Handler :=
  { h with osvs := insertMap h.osvs e.ID e }

/-- Function `moreSpecific` of handler.go, translated clause by clause:
`-1` means `f1` is judged more specific, `1` means `f2` is, `0` means they
are judged equally specific.  Accessing `Trace[0]` is embedded as `headI`
(the code assumes non-empty traces). -/
def moreSpecific (f1 f2 : Finding) : Int :=
  if 1 < f1.Trace.length ∧ 1 < f2.Trace.length then 0
  else if 1 < f1.Trace.length then -1
  else if 1 < f2.Trace.length then 1
  else if f1.Trace.headI.Function ≠ "" ∧ f2.Trace.headI.Function = "" then -1
  else if f1.Trace.headI.Function = "" ∧ f2.Trace.headI.Function ≠ "" then 1
  else if f1.Trace.headI.Package ≠ "" ∧ f2.Trace.headI.Package = "" then -1
  else if f1.Trace.headI.Package = "" ∧ f2.Trace.headI.Package ≠ "" then -1
  else 0

/-- Method `Finding` of the handler: the aggregation step.  An empty or
absent group is replaced by the singleton of the new finding; otherwise the
new finding is compared against the first group member and the group is
replaced, extended or left unchanged. -/
def Handler.Finding (h : Handler) (f : Finding) : Handler :=
  let fs := (lookupMap h.findings f.OSV).getD []
  let fs2 :=
    if fs.length = 0 then [f]
    else if moreSpecific f fs.headI = -1 then [f]
    else if moreSpecific f fs.headI = 0 then fs ++ [f]
    else fs
  { h with findings := insertMap h.findings f.OSV fs2 }

/-- Modelled from the spec: helper `choose` of the sarif package (not among
the given sources): picks the first string when the condition holds,
the second otherwise.  This is fixed by the spec: pluralization appends
nothing exactly when the count is one (`choose "" "s" (l == 1)`), and the
symbol-level qualifier is chosen exactly when symbols were requested. -/
def choose (s1 s2 : String) (cond : Bool) : String :=
  if cond then s1 else s2

/-- Modelled from the spec: helper `list` of the sarif package (not among
the given sources): renders the elements as a comma-joined list, as in the
concrete scenario message `(a, b)` of the spec. -/
def list (elems : List String) : String :=
  String.intercalate ", " elems

/-- Suggestion sentence used by `resultMessage` (local constant
`runCallAnalysis` in handler.go). -/
def runCallAnalysis : String :=
  "Run the call-level analysis to understand whether your code actually calls the vulnerabilities."

/-- Function `resultMessage` of handler.go.  Note the two different
apostrophes in the source: the package-tier qualifier uses the Unicode
right single quotation mark U+2019, the module-tier qualifier uses the
ASCII apostrophe U+0027; both are kept byte-faithfully. -/
def resultMessage (findings : List Finding) (cfg : Config) : String :=
  let frame := findings.headI.Trace.headI
  let elems :=
    if frame.Function = "" ∧ frame.Package = "" then
      sortedUnique (findings.map (fun f => f.Trace.headI.Module))
    else
      sortedUnique (findings.map (fun f => f.Trace.headI.Package))
  let l := elems.length
  let elemList := list elems
  if frame.Function ≠ "" then
    "Your code " ++ "calls vulnerable functions in " ++ toString l ++ " package" ++
      choose "" "s" (l == 1) ++ " (" ++ elemList ++ ")."
  else if frame.Package ≠ "" then
    let mn := "imports " ++ toString l ++ " vulnerable package" ++
      choose "" "s" (l == 1) ++ " (" ++ elemList ++ ")"
    let addition := choose ", but doesn’t appear to call any of the vulnerable symbols."
      (". " ++ runCallAnalysis) cfg.ScanLevel.WantSymbols
    "Your code " ++ mn ++ addition
  else
    let mn := "depends on " ++ toString l ++ " vulnerable module" ++
      choose "" "s" (l == 1) ++ " (" ++ elemList ++ ")"
    let informational := ", but doesn\x27t appear to " ++
      choose "call" "import" cfg.ScanLevel.WantSymbols ++ " any of the vulnerable symbols."
    let addition := choose informational (". " ++ runCallAnalysis) cfg.ScanLevel.WantPackages
    "Your code " ++ mn ++ addition

/-- Severity constant `errorLevel` of handler.go (the "high" tier). -/
def errorLevel : String := "error"

/-- Severity constant `warningLevel` of handler.go (the "medium" tier). -/
def warningLevel : String := "warning"

/-- Severity constant `informationalLevel` of handler.go (the
"informational" tier). -/
def informationalLevel : String := "note"

/-- Function `level` of handler.go: severity of a finding given the
requested scan depth. -/
def level (f : Finding) (cfg : Config) : String :=
  if cfg.ScanLevel.WantSymbols then
    if f.Trace.headI.Function ≠ "" then errorLevel
    else if f.Trace.headI.Package ≠ "" then warningLevel
    else informationalLevel
  else if cfg.ScanLevel.WantPackages then
    if f.Trace.headI.Package ≠ "" then errorLevel
    else warningLevel
  else errorLevel

/-- Function `stack` of handler.go: reverses the trace (vulnerable symbol
last), projects each frame to its module path and labels the stack with
the qualified vulnerable symbol. -/
def stack (f : Finding) : Stack :=
  let trace := f.Trace
  let frames := trace.reverse.map (fun fr => { Module := fr.Module : StackFrame })
  let vuln := trace.headI
  let vulnSym0 := vuln.Function
  let vulnSym1 := if vuln.Receiver ≠ "" then vuln.Receiver ++ "." ++ vulnSym0 else vulnSym0
  let vulnSym := vuln.Package ++ "." ++ vulnSym1
  { Frames := frames
    Message := { Text := "A call stack for vulnerable function " ++ vulnSym } }

/-- Function `stacks` of handler.go (the name `stacks` is reserved in Lean, hence the prefix): no stacks unless the group is at call
level; otherwise one stack per finding, sorted (stably) by label. -/
def sarifStacks (fs : List Finding) : List Stack :=
  if fs.headI.Trace.headI.Function = "" then []
  else
    List.insertionSort (fun s1 s2 => strLe s1.Message.Text s2.Message.Text = true)
      (fs.map stack)

/-- Function `rules` of handler.go: one catalog entry per finding group,
sorted by identifier.  The Go code iterates the `findings` map in
unspecified order and then sorts by ID with `sort.SliceStable`; since the
keys are unique, the sorted result does not depend on the iteration order,
and the embedding iterates the association list. -/
def rules (h : Handler) : List Rule :=
  let rs := h.findings.map (fun p =>
    let osv := (lookupMap h.osvs p.1).getD default
    let s := if osv.Summary = "" then osv.Details else osv.Summary
    { ID := osv.ID
      ShortDescription := { Text := "[" ++ osv.ID ++ "] " ++ s }
      FullDescription := { Text := s }
      HelpURI := "https://pkg.go.dev/vuln/" ++ osv.ID
      Help := { Text := osv.Details }
      Properties := { Tags := osv.Aliases } : Rule })
  List.insertionSort (fun r1 r2 => strLe r1.ID r2.ID = true) rs

/-- Function `results` of handler.go: one result per finding group, sorted
by rule identifier (the comment in the source says: for deterministic
output).  As for `rules`, the unique keys make the post-sort result
independent of the map iteration order. -/
def results (h : Handler) : List Result :=
  let rs := h.findings.map (fun p =>
    { RuleID := p.2.headI.OSV
      Level := level p.2.headI h.cfg
      Message := { Text := resultMessage p.2 h.cfg }
      Stacks := sarifStacks p.2 : Result })
  List.insertionSort (fun r1 r2 => strLe r1.RuleID r2.RuleID = true) rs

/-- Function `toSarif` of handler.go: assembles the final document. -/
def toSarif (h : Handler) : Log :=
  { Version := "2.1.0"
    Schema := "https://json.schemastore.org/sarif-2.1.0.json"
    Runs := [{ Tool := { Driver := { Name := h.cfg.ScannerName
                                     Version := h.cfg.ScannerVersion
                                     InformationURI := "https://pkg.go.dev/golang.org/x/vuln/cmd/govulncheck"
                                     Properties := h.cfg
                                     Rules := rules h } }
               Results := results h }] }

/-- Method `Flush` of handler.go, with the encoder and the output writer
passed explicitly: `toSarif` is encoded; an encoding error is returned; on
success the bytes are handed to the writer and — exactly as in the source,
where the return values of `h.w.Write(s)` are discarded — the result of the
write is ignored and `nil` is returned. -/
def Flush (encode : Log → Except String String) (write : String → Except String Unit)
    (h : Handler) : Except String Unit :=
  match encode (toSarif h) with
  | Except.error err => Except.error err
  | Except.ok s =>
    let _ := write s
    Except.ok ()

/-- Modelled from the spec: serialization of one stack for the final
document rendering. -/
def encodeStack (s : Stack) : String :=
  s.Message.Text ++ "[" ++ String.intercalate "," (s.Frames.map (fun fr => fr.Module)) ++ "]"

/-- Modelled from the spec: serialization of one result. -/
def encodeResult (r : Result) : String :=
  r.RuleID ++ "|" ++ r.Level ++ "|" ++ r.Message.Text ++ "|" ++
    String.intercalate ";" (r.Stacks.map encodeStack)

/-- Modelled from the spec: serialization of one rule. -/
def encodeRule (r : Rule) : String :=
  r.ID ++ "|" ++ r.ShortDescription.Text ++ "|" ++ r.FullDescription.Text ++ "|" ++
    r.HelpURI ++ "|" ++ r.Help.Text ++ "|" ++ String.intercalate "," r.Properties.Tags

/-- Modelled from the spec: rendering of the echoed scan depth. -/
def scanLevelName : ScanLevel → String
  | ScanLevel.module => "module"
  | ScanLevel.package => "package"
  | ScanLevel.symbol => "symbol"

/-- Modelled from the spec: serialization of the echoed configuration. -/
def encodeConfig (c : Config) : String :=
  c.ScannerName ++ "|" ++ c.ScannerVersion ++ "|" ++ scanLevelName c.ScanLevel

/-- Modelled from the spec: serialization of one run. -/
def encodeRun (r : Run) : String :=
  r.Tool.Driver.Name ++ "|" ++ r.Tool.Driver.Version ++ "|" ++
    r.Tool.Driver.InformationURI ++ "|" ++ encodeConfig r.Tool.Driver.Properties ++ "|[" ++
    String.intercalate "\n" (r.Tool.Driver.Rules.map encodeRule) ++ "]|[" ++
    String.intercalate "\n" (r.Results.map encodeResult) ++ "]"

/-- Modelled from the spec: the one-shot encoding performed by `Flush`
(`json.MarshalIndent` in the source).  The exact wire syntax is out of the
spec scope; what matters for the claims is that the encoding is a fixed
deterministic function of the document that renders every field the
handler fills in, which this rendering does. -/
def encodeLog (l : Log) : String :=
  l.Version ++ "|" ++ l.Schema ++ "|" ++ String.intercalate "\n" (l.Runs.map encodeRun)

/-- Modelled from the spec: encoding a document of this shape cannot fail
(`json.MarshalIndent` of the handler structures has no failure mode), so
the standard encoder always succeeds. -/
def jsonEncode (l : Log) : Except String String :=
  Except.ok (encodeLog l)

/-- One submission event of the handler protocol: a vulnerability
definition or a finding. -/
inductive Event where
  | osv : OsvEntry → Event
  | finding : Finding → Event
deriving DecidableEq, Inhabited

/-- Dispatch of one event to the corresponding handler method. -/
def Handler.handleEvent (h : Handler) : Event → Handler
  | Event.osv e => h.OSV e
  | Event.finding f => h.Finding f

/-- Feeding a sequence of submissions to the handler. -/
def runEvents (h : Handler) (evs : List Event) : Handler :=
  evs.foldl Handler.handleEvent h

/-- Precision tier of a sink frame, as the spec orders it: module-only is
0, package-populated is 1, function-populated is 2. -/
def tier (fr : Frame) : Nat :=
  if fr.Function ≠ "" then 2 else if fr.Package ≠ "" then 1 else 0

/-- Precision tier of a finding, determined by its sink frame
(`Trace[0]`). -/
def sinkTier (f : Finding) : Nat := tier f.Trace.headI

/-- A finding as the producers of this repository emit it: its trace is
non-empty, and a trace of length greater than one is a call stack, whose
sink frame carries a function name. -/
def GoodFinding (f : Finding) : Prop :=
  f.Trace ≠ [] ∧ (1 < f.Trace.length → f.Trace.headI.Function ≠ "")

instance (f : Finding) : Decidable (GoodFinding f) :=
  inferInstanceAs (Decidable (f.Trace ≠ [] ∧ (1 < f.Trace.length → f.Trace.headI.Function ≠ "")))

/-- Specificity homogeneity of one finding group: every member has the sink
tier of the first member. -/
def GroupHomog (g : List Finding) : Prop :=
  ∀ f ∈ g, sinkTier f = sinkTier g.headI

instance (g : List Finding) : Decidable (GroupHomog g) :=
  inferInstanceAs (Decidable (∀ f ∈ g, sinkTier f = sinkTier g.headI))

/-- Boolean form of invariant I1 over the whole findings map. -/
def groupsHomogeneousB (m : List (String × List Finding)) : Bool :=
  decide (∀ p ∈ m, GroupHomog p.2)

/-- Induction invariant for the aggregator: every stored group is
homogeneous and consists of well-formed findings. -/
def StateOk (m : List (String × List Finding)) : Prop :=
  ∀ p ∈ m, GroupHomog p.2 ∧ ∀ f ∈ p.2, GoodFinding f

/-- Units enumerated by `resultMessage` per the spec: sink package paths
for function- and package-tier groups, sink module paths for module-tier
groups, deduplicated and sorted. -/
def specUnits (fs : List Finding) : List String :=
  if fs.headI.Trace.headI.Function = "" ∧ fs.headI.Trace.headI.Package = "" then
    sortedUnique (fs.map (fun f => f.Trace.headI.Module))
  else
    sortedUnique (fs.map (fun f => f.Trace.headI.Package))

/-- Pluralization per the spec: a trailing "s" exactly when the count is
not one. -/
def pluralS (n : Nat) : String := if n = 1 then "" else "s"

/-- Qualifier appended to a package-tier message (with the U+2019
apostrophe the source uses there). -/
def pkgQualifier (cfg : Config) : String :=
  choose ", but doesn’t appear to call any of the vulnerable symbols."
    (". " ++ runCallAnalysis) cfg.ScanLevel.WantSymbols

/-- Qualifier appended to a module-tier message (with the ASCII apostrophe
the source uses there). -/
def modQualifier (cfg : Config) : String :=
  choose (", but doesn\x27t appear to " ++ choose "call" "import" cfg.ScanLevel.WantSymbols ++
      " any of the vulnerable symbols.")
    (". " ++ runCallAnalysis) cfg.ScanLevel.WantPackages

/-- Imports clause of a package-tier message: everything before the
qualifier. -/
def importsClause (fs : List Finding) : String :=
  "Your code " ++ ("imports " ++ toString (specUnits fs).length ++ " vulnerable package" ++
    pluralS (specUnits fs).length ++ " (" ++ String.intercalate ", " (specUnits fs) ++ ")")

/-- Module-only sink frame used in concrete scenarios. -/
def mFrame : Frame :=
  { Module := "example.com/m", Package := "", Function := "", Receiver := "" }

/-- Package-level sink frame used in concrete scenarios. -/
def pFrame : Frame :=
  { Module := "example.com/m", Package := "example.com/m/p", Function := "", Receiver := "" }

/-- Function-level sink frame used in concrete scenarios. -/
def fFrame : Frame :=
  { Module := "example.com/m", Package := "example.com/m/p", Function := "Vuln", Receiver := "" }

/-- Module-level finding for the concrete scenarios. -/
def modFind : Finding := { OSV := "GO-2024-0001", FixedVersion := "", Trace := [mFrame] }

/-- Package-level finding for the concrete scenarios. -/
def pkgFind : Finding := { OSV := "GO-2024-0001", FixedVersion := "", Trace := [pFrame] }

/-- Degenerate finding whose trace has length two but whose sink frame is
module-only. -/
def stackyMod : Finding := { OSV := "GO-2024-0001", FixedVersion := "", Trace := [mFrame, mFrame] }

/-- Call-stack finding whose trace has length two and whose sink frame is
function-level. -/
def stackyFun : Finding := { OSV := "GO-2024-0001", FixedVersion := "", Trace := [fFrame, mFrame] }

/-- Configuration requesting symbol-level analysis. -/
def cfgSym : Config :=
  { ScannerName := "govulncheck", ScannerVersion := "v1.0.0", ScanLevel := ScanLevel.symbol }

/-- Vulnerability definition used by the determinism scenario. -/
def osvV : OsvEntry :=
  { ID := "GO-2024-0001", Summary := "summary", Details := "details", Aliases := [] }

/-- Submission order: definition, then the module-level finding, then the
package-level finding. -/
def order1 : List Event := [Event.osv osvV, Event.finding modFind, Event.finding pkgFind]

/-- The same multiset of submissions with the two findings swapped. -/
def order2 : List Event := [Event.osv osvV, Event.finding pkgFind, Event.finding modFind]

/-- Function-level finding in package `a` (concrete scenario B of the
spec). -/
def findingA : Finding :=
  { OSV := "GO-V2", FixedVersion := ""
    Trace := [{ Module := "a", Package := "a", Function := "FA", Receiver := "" }] }

/-- Function-level finding in package `b` (concrete scenario B of the
spec). -/
def findingB : Finding :=
  { OSV := "GO-V2", FixedVersion := ""
    Trace := [{ Module := "b", Package := "b", Function := "FB", Receiver := "" }] }

/-- Package-level finding with a short package path, used for the message
counterexample. -/
def pFindShort : Finding :=
  { OSV := "GO-1", FixedVersion := ""
    Trace := [{ Module := "m", Package := "p", Function := "", Receiver := "" }] }


/-! ## Helper lemmas -/

theorem charListLe_total : ∀ as bs : List Char, charListLe as bs = true ∨ charListLe bs as = true := by
  intro as
  induction as with
  | nil => intro bs; left; rfl
  | cons a as ih =>
    intro bs
    cases bs with
    | nil => right; rfl
    | cons b bs =>
      by_cases hab : a < b
      · left; simp [charListLe, hab]
      · by_cases hba : b < a
        · right; simp [charListLe, hba]
        · rcases ih bs with h | h
          · left; simp [charListLe, hab, hba, h]
          · right; simp [charListLe, hab, hba, h]

theorem charListLe_trans : ∀ as bs cs : List Char,
    charListLe as bs = true → charListLe bs cs = true → charListLe as cs = true := by
  intro as
  induction as with
  | nil => intro bs cs _ _; rfl
  | cons a as ih =>
    intro bs cs h1 h2
    cases bs with
    | nil => simp [charListLe] at h1
    | cons b bs =>
      cases cs with
      | nil => simp [charListLe] at h2
      | cons c cs =>
        by_cases hab : a < b
        · by_cases hbc : b < c
          · have hac : a < c := lt_trans hab hbc
            simp [charListLe, hac]
          · by_cases hcb : c < b
            · simp [charListLe, hbc, hcb] at h2
            · have hbc2 : b = c := le_antisymm (le_of_not_lt hcb) (le_of_not_lt hbc)
              subst hbc2
              simp [charListLe, hab]
        · by_cases hba : b < a
          · simp [charListLe, hab, hba] at h1
          · have hab2 : a = b := le_antisymm (le_of_not_lt hba) (le_of_not_lt hab)
            subst hab2
            simp only [charListLe, hab, hba, if_neg, if_false] at h1 ⊢
            by_cases hac : a < c
            · simp [hac]
            · by_cases hca : c < a
              · simp [charListLe, hac, hca] at h2
              · simp only [charListLe, hac, hca, if_neg, if_false] at h2 ⊢
                exact ih bs cs h1 h2

theorem strLe_total (a b : String) : strLe a b = true ∨ strLe b a = true :=
  charListLe_total a.toList b.toList

theorem strLe_trans (a b c : String) : strLe a b = true → strLe b c = true → strLe a c = true :=
  charListLe_trans a.toList b.toList c.toList

theorem sortedUnique_nodup (xs : List String) : (sortedUnique xs).Nodup :=
  ((List.perm_insertionSort _ xs.dedup).nodup_iff).mpr xs.nodup_dedup

theorem sortedUnique_sorted (xs : List String) :
    List.Sorted (fun a b => strLe a b = true) (sortedUnique xs) :=
  @List.sorted_insertionSort String (fun a b => strLe a b = true) (fun _ _ => instDecidableEqBool _ _)
    ⟨strLe_total⟩ ⟨strLe_trans⟩ xs.dedup

theorem lookupMap_mem {α : Type} (m : List (String × α)) (k : String) (v : α)
    (h : lookupMap m k = some v) : (k, v) ∈ m := by
  induction m with
  | nil => simp [lookupMap] at h
  | cons p rest ih =>
    obtain ⟨k2, v2⟩ := p
    by_cases hk : k2 = k
    · subst hk
      simp [lookupMap] at h
      subst h
      exact List.mem_cons_self _ _
    · simp [lookupMap, hk] at h
      exact List.mem_cons_of_mem _ (ih h)

theorem insertMap_forall {α : Type} (P : String × α → Prop) (m : List (String × α))
    (k : String) (v : α) (hm : ∀ p ∈ m, P p) (hv : P (k, v)) :
    ∀ p ∈ insertMap m k v, P p := by
  induction m with
  | nil => simpa [insertMap] using hv
  | cons q rest ih =>
    obtain ⟨k2, v2⟩ := q
    by_cases hk : k2 = k
    · subst hk
      simp only [insertMap, if_pos rfl]
      intro p hp
      rcases List.mem_cons.mp hp with h | h
      · subst h; exact hv
      · exact hm p (List.mem_cons_of_mem _ h)
    · simp only [insertMap, if_neg hk]
      intro p hp
      rcases List.mem_cons.mp hp with h | h
      · subst h; exact hm (k2, v2) (List.mem_cons_self _ _)
      · exact ih (fun q hq => hm q (List.mem_cons_of_mem _ hq)) p h

theorem tier_eq_of_moreSpecific_zero (f1 f2 : Finding)
    (h1 : GoodFinding f1) (h2 : GoodFinding f2)
    (hms : moreSpecific f1 f2 = 0) : sinkTier f1 = sinkTier f2 := by
  unfold moreSpecific at hms
  unfold sinkTier tier
  by_cases a1 : 1 < f1.Trace.length <;> by_cases a2 : 1 < f2.Trace.length
  · have hf1 := h1.2 a1
    have hf2 := h2.2 a2
    simp [hf1, hf2]
  · simp [a1, a2] at hms
  · simp [a1, a2] at hms
  · have hcond : ¬ (1 < f1.Trace.length ∧ 1 < f2.Trace.length) := by tauto
    rw [if_neg hcond, if_neg a1, if_neg a2] at hms
    by_cases e1 : f1.Trace.headI.Function = "" <;> by_cases e2 : f2.Trace.headI.Function = "" <;>
      by_cases p1 : f1.Trace.headI.Package = "" <;> by_cases p2 : f2.Trace.headI.Package = "" <;>
      simp [e1, e2, p1, p2] at hms ⊢

theorem finding_preserves_stateOk (h : Handler) (f : Finding)
    (hs : StateOk h.findings) (hf : GoodFinding f) :
    StateOk (h.Finding f).findings := by
  have key : ∀ fs2 : List Finding,
      (GroupHomog fs2 ∧ ∀ g ∈ fs2, GoodFinding g) →
      StateOk (insertMap h.findings f.OSV fs2) := by
    intro fs2 hok
    exact insertMap_forall _ h.findings f.OSV fs2 hs hok
  show StateOk (insertMap h.findings f.OSV _)
  cases hl : lookupMap h.findings f.OSV with
  | none =>
    show StateOk (insertMap h.findings f.OSV [f])
    apply key
    constructor
    · intro g hg
      rcases List.mem_singleton.mp (by simpa using hg) with rfl
      rfl
    · intro g hg
      rcases List.mem_singleton.mp (by simpa using hg) with rfl
      exact hf
  | some fs =>
    have hmem := lookupMap_mem h.findings f.OSV fs hl
    have hfs := hs (f.OSV, fs) hmem
    simp only [Option.getD_some]
    by_cases hlen : fs.length = 0
    · rw [if_pos hlen]
      apply key
      refine ⟨fun g hg => ?_, fun g hg => ?_⟩ <;>
        rcases List.mem_singleton.mp hg with rfl
      · rfl
      · exact hf
    · rw [if_neg hlen]
      by_cases hrepl : moreSpecific f fs.headI = -1
      · rw [if_pos hrepl]
        apply key
        refine ⟨fun g hg => ?_, fun g hg => ?_⟩ <;>
          rcases List.mem_singleton.mp hg with rfl
        · rfl
        · exact hf
      · rw [if_neg hrepl]
        by_cases happ : moreSpecific f fs.headI = 0
        · rw [if_pos happ]
          cases fs with
          | nil => simp at hlen
          | cons f0 rest =>
            apply key
            have hhomog : GroupHomog (f0 :: rest) := hfs.1
            have hgood : ∀ g ∈ (f0 :: rest), GoodFinding g := hfs.2
            have hf0 : GoodFinding f0 := hgood f0 (List.mem_cons_self _ _)
            have hnewtier : sinkTier f = sinkTier f0 :=
              tier_eq_of_moreSpecific_zero f f0 hf hf0 happ
            constructor
            · intro g hg
              rcases List.mem_append.mp hg with hg | hg
              · exact hhomog g hg
              · rcases List.mem_singleton.mp hg with rfl
                exact hnewtier
            · intro g hg
              rcases List.mem_append.mp hg with hg | hg
              · exact hgood g hg
              · rcases List.mem_singleton.mp hg with rfl
                exact hf
        · rw [if_neg happ]
          exact key fs hfs

theorem runFindings_stateOk (subs : List Finding) :
    ∀ h : Handler, (∀ f ∈ subs, GoodFinding f) → StateOk h.findings →
      StateOk ((subs.foldl Handler.Finding h).findings) := by
  induction subs with
  | nil => intro h _ hs; exact hs
  | cons a t ih =>
    intro h hg hs
    exact ih _ (fun f hf => hg f (List.mem_cons_of_mem _ hf))
      (finding_preserves_stateOk h a hs (hg a (List.mem_cons_self _ _)))

/-! ## Claims -/

/-- C1: the claim states that rule 3 of the resolver is symmetric — between
two sink frames without function names, the finding whose sink frame has a
populated package is ranked strictly more specific regardless of argument
position.  The code violates this: at the concrete pair below (both sink
frames without a function, only the second argument with a package),
`moreSpecific` returns `-1`, ranking the package-less first argument more
specific, in both argument orders — contradicting the doc comment of
`moreSpecific` itself, which says a package finding is favored over a
module finding. -/
theorem c1_package_rule_asymmetric :
    (modFind.Trace.headI.Function = "" ∧ pkgFind.Trace.headI.Function = "" ∧
      modFind.Trace.headI.Package = "" ∧ pkgFind.Trace.headI.Package ≠ "") ∧
    moreSpecific pkgFind modFind = -1 ∧
    moreSpecific modFind pkgFind = -1 := by decide

/-- C2: the claim states that a strictly less specific submission never
changes a non-empty group.  The code violates this: starting from the
package-level singleton group for the identifier, submitting the strictly
less specific module-level finding replaces the group with the singleton
of the module-level finding. -/
theorem c2_less_specific_replaces :
    sinkTier modFind < sinkTier pkgFind ∧
    lookupMap ((newHandler cfgSym).Finding pkgFind).findings "GO-2024-0001" = some [pkgFind] ∧
    lookupMap (((newHandler cfgSym).Finding pkgFind).Finding modFind).findings "GO-2024-0001" =
      some [modFind] := by decide

/-- C3 counterexample: the claim quantifies over all submissions with
non-empty traces, but two findings whose traces both have length two are
appended to the same group without any frame comparison, so a module-only
sink and a function-level sink end up in one group. -/
theorem c3_counterexample :
    stackyMod.Trace ≠ [] ∧ stackyFun.Trace ≠ [] ∧
    groupsHomogeneousB (([stackyMod, stackyFun].foldl Handler.Finding
      (newHandler cfgSym)).findings) = false := by decide

/-- C3 (amended): invariant I1 holds for every submission sequence of
well-formed findings — non-empty trace, and a trace longer than one frame
(a call stack) carries a function name in its sink frame: after any such
sequence every retained group is homogeneous in sink-frame precision
tier. -/
theorem c3_specificity_homogeneity (cfg : Config) (subs : List Finding)
    (hgood : ∀ f ∈ subs, GoodFinding f) :
    ∀ p ∈ (subs.foldl Handler.Finding (newHandler cfg)).findings, GroupHomog p.2 := by
  intro p hp
  exact (runFindings_stateOk subs (newHandler cfg) hgood
    (fun q hq => absurd hq (List.not_mem_nil q)) p hp).1

/-- C3 witness: the amended theorem applied to the concrete two-finding
sequence of scenario A. -/
theorem c3_witness :
    groupsHomogeneousB (([modFind, pkgFind].foldl Handler.Finding
      (newHandler cfgSym)).findings) = true := by
  have h := c3_specificity_homogeneity cfgSym [modFind, pkgFind] (by decide)
  unfold groupsHomogeneousB
  exact decide_eq_true h

/-- C5: the severity decision table of `level`.  When symbol-level scanning
was requested: function present gives high (error), package present
without function gives medium (warning), otherwise informational (note);
when package-level scanning was requested: package present gives high,
otherwise medium; for module-level scanning always high — and the result
is never outside the three tiers. -/
theorem c5_level_table (f : Finding) (cfg : Config) (hne : f.Trace ≠ []) :
    (cfg.ScanLevel = ScanLevel.symbol →
      level f cfg = if f.Trace.headI.Function ≠ "" then errorLevel
        else if f.Trace.headI.Package ≠ "" then warningLevel else informationalLevel) ∧
    (cfg.ScanLevel = ScanLevel.package →
      level f cfg = if f.Trace.headI.Package ≠ "" then errorLevel else warningLevel) ∧
    (cfg.ScanLevel = ScanLevel.module → level f cfg = errorLevel) ∧
    (level f cfg = errorLevel ∨ level f cfg = warningLevel ∨ level f cfg = informationalLevel) := by
  refine ⟨?_, ?_, ?_, ?_⟩
  · intro hx
    simp [level, hx, ScanLevel.WantSymbols]
  · intro hx
    simp [level, hx, ScanLevel.WantSymbols, ScanLevel.WantPackages]
  · intro hx
    simp [level, hx, ScanLevel.WantSymbols, ScanLevel.WantPackages]
  · cases hsl : cfg.ScanLevel with
    | module =>
      left
      simp [level, hsl, ScanLevel.WantSymbols, ScanLevel.WantPackages]
    | package =>
      by_cases hp : f.Trace.headI.Package = ""
      · right; left
        simp [level, hsl, ScanLevel.WantSymbols, ScanLevel.WantPackages, hp]
      · left
        simp [level, hsl, ScanLevel.WantSymbols, ScanLevel.WantPackages, hp]
    | symbol =>
      by_cases hf : f.Trace.headI.Function = ""
      · by_cases hp : f.Trace.headI.Package = ""
        · right; right
          simp [level, hsl, ScanLevel.WantSymbols, hf, hp]
        · right; left
          simp [level, hsl, ScanLevel.WantSymbols, hf, hp]
      · left
        simp [level, hsl, ScanLevel.WantSymbols, hf]

/-- C5 witness: the table applied to the package-level finding under the
symbol-requesting configuration yields the medium (warning) tier. -/
theorem c5_witness : level pkgFind cfgSym = warningLevel := by
  have h := (c5_level_table pkgFind cfgSym (by decide)).1 rfl
  rw [h]
  decide

/-- C9: trace-length dominance of the resolver.  If both traces are longer
than one frame the findings are judged equal; if exactly one is, that
finding is judged strictly more specific; and whenever at least one trace
is longer than one frame the verdict depends only on the two trace
lengths, never on any frame field. -/
theorem c9_trace_length_dominance (f1 f2 : Finding) :
    (1 < f1.Trace.length → 1 < f2.Trace.length → moreSpecific f1 f2 = 0) ∧
    (1 < f1.Trace.length → ¬ 1 < f2.Trace.length → moreSpecific f1 f2 = -1) ∧
    (1 < f2.Trace.length → ¬ 1 < f1.Trace.length → moreSpecific f1 f2 = 1) ∧
    ((1 < f1.Trace.length ∨ 1 < f2.Trace.length) →
      ∀ g1 g2 : Finding, g1.Trace.length = f1.Trace.length →
        g2.Trace.length = f2.Trace.length → moreSpecific g1 g2 = moreSpecific f1 f2) := by
  refine ⟨?_, ?_, ?_, ?_⟩
  · intro a1 a2
    simp [moreSpecific, a1, a2]
  · intro a1 a2
    simp [moreSpecific, a1, a2]
  · intro a2 a1
    simp [moreSpecific, a1, a2]
  · intro hor g1 g2 e1 e2
    unfold moreSpecific
    rw [e1, e2]
    by_cases a1 : 1 < f1.Trace.length
    · by_cases a2 : 1 < f2.Trace.length
      · simp [a1, a2]
      · simp [a1, a2]
    · have a2 : 1 < f2.Trace.length := by tauto
      have a1x : ¬ (1 < f1.Trace.length ∧ 1 < f2.Trace.length) := by tauto
      simp [a1, a2, a1x]

/-- C9 witness: the dominance theorem applied to a call-stack finding
(trace length two) against a one-frame package finding. -/
theorem c9_witness : moreSpecific stackyFun pkgFind = -1 :=
  (c9_trace_length_dominance stackyFun pkgFind).2.1 (by decide) (by decide)

theorem choose_plural (n : Nat) : choose "" "s" (n == 1) = pluralS n := by
  unfold choose pluralS
  by_cases h : n = 1 <;> simp [h]

set_option maxRecDepth 20000 in
/-- C4: the claim states that two handlers fed the same multiset of
submissions in different orders write byte-identical output after `Flush`.
The code violates this: the two orders below are permutations of one
another, yet — because the asymmetric branch of `moreSpecific` lets a
module-level finding displace a package-level group — the serialized
documents differ (one reports a package-level result, the other a
module-level one). -/
theorem c4_order_dependent_output :
    List.Perm order1 order2 ∧
    encodeLog (toSarif (runEvents (newHandler cfgSym) order1)) ≠
      encodeLog (toSarif (runEvents (newHandler cfgSym) order2)) := by
  constructor
  · exact List.Perm.cons _ (List.Perm.swap _ _ _)
  · decide

/-- C6: pluralization and enumeration of `resultMessage`.  For every
non-empty group the message renders the count of unique units — sink
package paths at function and package tier, sink module paths at module
tier — followed by the noun carrying a trailing s exactly when that count
is not one, with the units deduplicated, sorted and comma-joined; and the
concrete scenario B group produces exactly the message the spec shows. -/
theorem c6_pluralization (fs : List Finding) (cfg : Config) (hne : fs ≠ []) :
    ((specUnits fs).Nodup ∧ List.Sorted (fun a b => strLe a b = true) (specUnits fs)) ∧
    resultMessage fs cfg =
      (if fs.headI.Trace.headI.Function ≠ "" then
        "Your code " ++ "calls vulnerable functions in " ++ toString (specUnits fs).length ++
          " package" ++ pluralS (specUnits fs).length ++ " (" ++
          String.intercalate ", " (specUnits fs) ++ ")."
      else if fs.headI.Trace.headI.Package ≠ "" then
        "Your code " ++ ("imports " ++ toString (specUnits fs).length ++ " vulnerable package" ++
          pluralS (specUnits fs).length ++ " (" ++ String.intercalate ", " (specUnits fs) ++ ")") ++
          pkgQualifier cfg
      else
        "Your code " ++ ("depends on " ++ toString (specUnits fs).length ++ " vulnerable module" ++
          pluralS (specUnits fs).length ++ " (" ++ String.intercalate ", " (specUnits fs) ++ ")") ++
          modQualifier cfg) ∧
    resultMessage [findingA, findingB] cfgSym =
      "Your code calls vulnerable functions in 2 packages (a, b)." := by
  refine ⟨⟨?_, ?_⟩, ?_, ?_⟩
  · unfold specUnits
    split_ifs <;> exact sortedUnique_nodup _
  · unfold specUnits
    split_ifs <;> exact sortedUnique_sorted _
  · by_cases hf : fs.headI.Trace.headI.Function = ""
    · by_cases hp : fs.headI.Trace.headI.Package = ""
      · simp [resultMessage, specUnits, list, modQualifier, hf, hp, choose_plural]
      · simp [resultMessage, specUnits, list, pkgQualifier, hf, hp, choose_plural]
    · simp [resultMessage, specUnits, list, hf, choose_plural]
  · decide

/-- C6 witness: the theorem applied to the scenario B group of two
function-level findings in packages a and b. -/
theorem c6_witness :
    resultMessage [findingA, findingB] cfgSym =
      "Your code calls vulnerable functions in 2 packages (a, b)." :=
  (c6_pluralization [findingA, findingB] cfgSym (by decide)).2.2

/-- C7 counterexample: the claim states the symbol-level package-tier
qualifier is exactly the ASCII-apostrophe string; the source writes that
qualifier with the Unicode apostrophe U+2019, so the produced message
differs from the claimed one. -/
theorem c7_counterexample :
    resultMessage [pFindShort] cfgSym =
      "Your code imports 1 vulnerable package (p), but doesn’t appear to call any of the vulnerable symbols." ∧
    resultMessage [pFindShort] cfgSym ≠
      "Your code imports 1 vulnerable package (p), but doesn\x27t appear to call any of the vulnerable symbols." := by
  constructor
  · decide
  · decide

/-- C7 (amended): for every package-tier group, when symbol-level results
were requested the message is the imports clause followed by exactly the
qualifier string written with the U+2019 apostrophe; otherwise it is the
imports clause followed by a period and the suggestion to run the
call-level analysis. -/
theorem c7_package_qualifier (fs : List Finding) (cfg : Config)
    (hfun : fs.headI.Trace.headI.Function = "")
    (hpkg : fs.headI.Trace.headI.Package ≠ "") :
    (cfg.ScanLevel.WantSymbols = true →
      resultMessage fs cfg =
        importsClause fs ++ ", but doesn’t appear to call any of the vulnerable symbols.") ∧
    (cfg.ScanLevel.WantSymbols = false →
      resultMessage fs cfg = importsClause fs ++ (". " ++ runCallAnalysis)) := by
  constructor
  · intro hws
    simp [resultMessage, importsClause, specUnits, list, choose, pluralS, hfun, hpkg, hws]
  · intro hws
    simp [resultMessage, importsClause, specUnits, list, choose, pluralS, hfun, hpkg, hws]

/-- C7 witness: the amended theorem applied to a concrete package-tier
group under the symbol-requesting configuration. -/
theorem c7_witness :
    resultMessage [pFindShort] cfgSym =
      importsClause [pFindShort] ++ ", but doesn’t appear to call any of the vulnerable symbols." :=
  (c7_package_qualifier [pFindShort] cfgSym (by decide) (by decide)).1 rfl

/-- C8: the claim states that a failing write during `Flush` is surfaced
to the caller.  The code violates the write half: an encoding failure is
returned (first conjunct), but when encoding succeeds and the write fails,
`Flush` discards the result of the write and returns success (second
conjunct) — the source ignores both return values of `h.w.Write(s)`. -/
theorem c8_write_error_discarded :
    Flush (fun _ => Except.error "encode failure") (fun _ => Except.ok ())
      (newHandler cfgSym) = Except.error "encode failure" ∧
    Flush jsonEncode (fun _ => Except.error "disk full")
      (newHandler cfgSym) = Except.ok () :=
  ⟨rfl, rfl⟩

/-- C10: a configured handler that never received a finding flushes
successfully and produces the canonical empty document: version 2.1.0, the
sarif 2.1.0 schema URI, exactly one run echoing the configuration, and
empty rule and result lists. -/
theorem c10_empty_report (cfg : Config) (osvs : List (String × OsvEntry))
    (write : String → Except String Unit) :
    Flush jsonEncode write { cfg := cfg, osvs := osvs, findings := [] } = Except.ok () ∧
    toSarif { cfg := cfg, osvs := osvs, findings := [] } =
      { Version := "2.1.0"
        Schema := "https://json.schemastore.org/sarif-2.1.0.json"
        Runs := [{ Tool := { Driver := { Name := cfg.ScannerName
                                         Version := cfg.ScannerVersion
                                         InformationURI := "https://pkg.go.dev/golang.org/x/vuln/cmd/govulncheck"
                                         Properties := cfg
                                         Rules := [] } }
                   Results := [] }] } :=
  ⟨rfl, rfl⟩
